import Mathlib

/-!
Verification of the scheduled-email delivery subsystem
(`backend/app/email/{models,store,service,tasks,router}.py`).

The Python code is shallowly embedded:
* pydantic models become Lean structures whose field defaults mirror the
  pydantic defaults;
* `datetime` values become `Int` timestamps (seconds); `timedelta(days=n)`
  becomes `n * oneDay`;
* the in-memory store's `Dict[str, X]` (Python 3.7+ insertion-ordered dict)
  becomes a `List X` in insertion order, keyed by the `id` field;
* Python truthiness tests on optional strings (`if error_message:`) become
  `pyTruthy`, which is false for `none` and for the empty string;
* `uuid.uuid4()` becomes an explicitly passed fresh identifier;
* each async task body is embedded as a pure state-transformer on the store
  (the store mutates pydantic objects in place, so the object a task fetched
  aliases the stored one; the embedding threads the updated record
  explicitly where the Python code relies on that aliasing).
-/

namespace EmailCore

/-- `EmailStatus` from `models.py`. -/
inductive EmailStatus
  | pending
  | queued
  | sending
  | sent
  | failed
  | cancelled
deriving DecidableEq, Repr

/-- `EmailPriority` from `models.py`. -/
inductive EmailPriority
  | low
  | normal
  | high
  | urgent
deriving DecidableEq, Repr

/-- `RecurrenceType` from `models.py`. -/
inductive RecurrenceType
  | norec
  | daily
  | weekly
  | monthly
  | custom
deriving DecidableEq, Repr

/-- `EmailRecipient` from `models.py` (`type` renamed `rtype` and
`variables` renamed `vars`; the free-form dict is an association list). -/
structure EmailRecipient where
  email : String
  name : Option String := none
  rtype : String := "to"
  vars : Option (List (String × String)) := none
deriving DecidableEq, Repr

/-- `EmailAttachment` from `models.py`. -/
structure EmailAttachment where
  filename : String
  contentType : String
  sizeBytes : Nat
  storageKey : Option String := none
  inlineAtt : Bool := false
deriving DecidableEq, Repr

/-- One day of the `Int` time scale (`timedelta(days=1)`). -/
def oneDay : Int := 86400

/-- `ScheduledEmail` from `models.py`; field defaults mirror the pydantic
defaults (`status=PENDING`, `retry_count=0`, `max_retries=3`,
`recurrence=NONE`, `recurrence_count=None`, ...). Timestamps are `Int`. -/
structure ScheduledEmail where
  id : String
  subject : String
  bodyHtml : Option String := none
  bodyText : Option String := none
  templateId : Option String := none
  templateVariables : Option (List (String × String)) := none
  fromEmail : String
  fromName : Option String := none
  recipients : List EmailRecipient
  replyTo : Option String := none
  attachments : List EmailAttachment := []
  scheduledAt : Int
  timezone : String := "UTC"
  recurrence : RecurrenceType := .norec
  recurrenceEnd : Option Int := none
  recurrenceCount : Option Int := none
  priority : EmailPriority := .normal
  status : EmailStatus := .pending
  policyId : Option String := none
  userId : String
  campaignId : Option String := none
  tags : List String := []
  createdAt : Int := 0
  updatedAt : Int := 0
  sentAt : Option Int := none
  errorMessage : Option String := none
  retryCount : Nat := 0
  maxRetries : Nat := 3
  messageId : Option String := none
  openCount : Nat := 0
  clickCount : Nat := 0
deriving DecidableEq, Repr

/-- `EmailTemplate` from `models.py` (`variables` renamed `vars`). -/
structure EmailTemplate where
  id : String
  name : String
  description : Option String := none
  subjectTemplate : String
  bodyHtmlTemplate : String
  bodyTextTemplate : Option String := none
  category : String := "general"
  vars : List String := []
  userId : Option String := none
  isSystem : Bool := false
  createdAt : Int := 0
  updatedAt : Int := 0
deriving DecidableEq, Repr

/-- `EmailStore` from `store.py`: the two insertion-ordered dicts, as lists of
values in insertion order (keys are the `id` fields). The secondary indexes
`_user_emails` / `_policy_emails` are derived data not needed by any claim and
are not carried. -/
structure EmailStore where
  emails : List ScheduledEmail := []
  templates : List EmailTemplate := []
deriving DecidableEq, Repr

/-- Python truthiness of an optional string: `None` and `""` are falsy. -/
def pyTruthy : Option String → Bool
  | none => false
  | some s => s ≠ ""

/-- `EmailStore.get_email`. -/
def getEmail (s : EmailStore) (emailId : String) : Option ScheduledEmail :=
  s.emails.find? (fun e => e.id == emailId)

/-- `EmailStore.save_email`: upsert keyed on `id`; sets `updated_at`; a new
key appends, an existing key is overwritten in place. -/
def saveEmail (s : EmailStore) (e : ScheduledEmail) (now : Int) : EmailStore :=
  let e' := { e with updatedAt := now }
  if s.emails.any (fun x => x.id == e.id) then
    { s with emails := s.emails.map (fun x => if x.id == e.id then e' else x) }
  else
    { s with emails := s.emails ++ [e'] }

/-- `EmailStore.delete_email` (index pruning elided with the indexes). -/
def deleteEmail (s : EmailStore) (emailId : String) : EmailStore × Bool :=
  if s.emails.any (fun x => x.id == emailId) then
    ({ s with emails := s.emails.eraseP (fun x => x.id == emailId) }, true)
  else
    (s, false)

/-- The `priority_order` map in `EmailStore.get_pending_emails`. -/
def priorityOrder : EmailPriority → Nat
  | .urgent => 0
  | .high => 1
  | .normal => 2
  | .low => 3

/-- The lexicographic order realized by Python's stable sort on the key
`(priority_order[e.priority], e.scheduled_at)`. -/
def dueLe (a b : ScheduledEmail) : Prop :=
  priorityOrder a.priority < priorityOrder b.priority ∨
    (priorityOrder a.priority = priorityOrder b.priority ∧
      a.scheduledAt ≤ b.scheduledAt)

instance : DecidableRel dueLe := fun a b => by
  unfold dueLe
  infer_instance

instance : IsTotal ScheduledEmail dueLe :=
  ⟨by intro a b; unfold dueLe; omega⟩

instance : IsTrans ScheduledEmail dueLe :=
  ⟨by intro a b c; unfold dueLe; omega⟩

/-- The due filter of `EmailStore.get_pending_emails`:
`status == PENDING and scheduled_at <= before`. -/
def dueFilter (s : EmailStore) (before : Int) : List ScheduledEmail :=
  s.emails.filter (fun e => e.status == .pending && e.scheduledAt ≤ before)

/-- `EmailStore.get_pending_emails`: filter `status == PENDING` and
`scheduled_at <= before`, stable-sort by `(priority_order, scheduled_at)`
(Python's `list.sort`; embedded as insertion sort, which computes the same
list as any stable sort by the same key), truncate to `limit`. -/
def getPendingEmails (s : EmailStore) (before : Int) (limit : Nat) :
    List ScheduledEmail :=
  (((dueFilter s before).insertionSort dueLe).take limit)

/-- The record mutation performed inside `EmailStore.update_email_status`:
set status and `updated_at`; on `SENT` set `sent_at`; a truthy error message
is recorded and increments `retry_count`; a truthy message id is recorded. -/
def applyStatusUpdate (now : Int) (status : EmailStatus)
    (errorMessage messageId : Option String) (e : ScheduledEmail) :
    ScheduledEmail :=
  { e with
    status := status
    updatedAt := now
    sentAt := if status = .sent then some now else e.sentAt
    errorMessage := if pyTruthy errorMessage then errorMessage else e.errorMessage
    retryCount := if pyTruthy errorMessage then e.retryCount + 1 else e.retryCount
    messageId := if pyTruthy messageId then messageId else e.messageId }

/-- `EmailStore.update_email_status`: mutate the record in place (same list
position) and return it; `none` when the id is absent. -/
def updateEmailStatus (s : EmailStore) (emailId : String) (now : Int)
    (status : EmailStatus) (errorMessage messageId : Option String) :
    EmailStore × Option ScheduledEmail :=
  match s.emails.find? (fun e => e.id == emailId) with
  | none => (s, none)
  | some e =>
      let e' := applyStatusUpdate now status errorMessage messageId e
      ({ s with emails := s.emails.map (fun x => if x.id == emailId then e' else x) },
       some e')

/-- `EmailStore.get_template`. -/
def getTemplate (s : EmailStore) (templateId : String) : Option EmailTemplate :=
  s.templates.find? (fun t => t.id == templateId)

/-- `EmailStore.delete_template`: removes a present non-system template and
returns `true`; returns `false` (without removal) for a system template or an
absent id. -/
def deleteTemplate (s : EmailStore) (templateId : String) : EmailStore × Bool :=
  match s.templates.find? (fun t => t.id == templateId) with
  | some t =>
      if ¬ t.isSystem then
        ({ s with templates := s.templates.eraseP (fun x => x.id == templateId) }, true)
      else (s, false)
  | none => (s, false)

/-! ### Provider chain (`service.py`) -/

/-- Outcome of one provider's `send` in the embedding: a concrete provider
either returns `{provider, message_id}` or raises `EmailProviderError` with a
message. The network call itself is abstracted into this per-provider
deterministic behavior. -/
structure ProviderSuccess where
  provider : String
  messageId : Option String := none
deriving DecidableEq, Repr

deriving instance DecidableEq for Except

/-- A registered provider of `EmailService.providers`: its dict key
(`get_name()`), and the behavior of its `send`. -/
structure Provider where
  name : String
  behavior : Except String ProviderSuccess
deriving DecidableEq, Repr

/-- `EmailService`: the `providers` dict in registration order plus the
configured `primary_provider` name. -/
structure EmailService where
  providers : List Provider
  primaryProvider : String
deriving DecidableEq, Repr

/-- Errors raised by `EmailService.send_email`: `"No email providers
available"` before the loop, or the aggregate `"All providers failed. Last
error: ..."` carrying the last underlying cause. -/
inductive ChainError
  | noProviders
  | allFailed (lastError : String)
deriving DecidableEq, Repr

/-- The `providers_to_try` list built by `EmailService.send_email`: the
requested provider if registered, else the primary if registered, followed by
every remaining registered provider in registration order. -/
def providersToTry (svc : EmailService) (requested : Option String) :
    List Provider :=
  let front : List Provider :=
    match requested.bind (fun r => svc.providers.find? (fun p => p.name == r)) with
    | some p => [p]
    | none =>
        match svc.providers.find? (fun p => p.name == svc.primaryProvider) with
        | some p => [p]
        | none => []
  front ++ svc.providers.filter (fun p => ¬ front.any (fun q => q.name == p.name))

/-- The provider loop of `EmailService.send_email`: try each provider in
order, return the first success together with the names attempted so far;
after all fail, raise the aggregate error with the last cause (`lastErr` is
`none` only when no provider has been tried, which the code reports as
`noProviders`). -/
def chainLoop : List Provider → Option String →
    Except ChainError ProviderSuccess × List String
  | [], lastErr =>
      (match lastErr with
       | some e => .error (.allFailed e)
       | none => .error .noProviders,
       [])
  | p :: rest, _ =>
      match p.behavior with
      | .ok r => (.ok r, [p.name])
      | .error e =>
          ((chainLoop rest (some e)).1, p.name :: (chainLoop rest (some e)).2)

/-- `EmailService.send_email` (provider-chain part): returns the first
successful provider result, and the ordered list of provider names attempted
during the invocation. -/
def serviceSend (svc : EmailService) (requested : Option String) :
    Except ChainError ProviderSuccess × List String :=
  chainLoop (providersToTry svc requested) none

/-! ### Background tasks (`tasks.py`) -/

/-- `_schedule_next_recurrence`: the next target timestamp, `none` for
`NONE`/`CUSTOM` recurrence (early return). -/
def nextTime (e : ScheduledEmail) : Option Int :=
  match e.recurrence with
  | .daily => some (e.scheduledAt + oneDay)
  | .weekly => some (e.scheduledAt + 7 * oneDay)
  | .monthly => some (e.scheduledAt + 30 * oneDay)
  | _ => none

/-- The successor record built by `_schedule_next_recurrence`: a copy of the
parent's content/routing/scheduling fields with the supplied fresh id, the
next timestamp, and pydantic defaults for status/bookkeeping.
`recurrence_count - 1 if recurrence_count else None` maps a missing or zero
counter to `none` and otherwise decrements. -/
def mkSuccessor (e : ScheduledEmail) (freshId : String) (nt : Int) (now : Int) :
    ScheduledEmail :=
  { id := freshId
    subject := e.subject
    bodyHtml := e.bodyHtml
    bodyText := e.bodyText
    templateId := e.templateId
    templateVariables := e.templateVariables
    fromEmail := e.fromEmail
    fromName := e.fromName
    recipients := e.recipients
    replyTo := e.replyTo
    attachments := e.attachments
    scheduledAt := nt
    timezone := e.timezone
    recurrence := e.recurrence
    recurrenceEnd := e.recurrenceEnd
    recurrenceCount :=
      match e.recurrenceCount with
      | some c => if c ≠ 0 then some (c - 1) else none
      | none => none
    priority := e.priority
    policyId := e.policyId
    userId := e.userId
    campaignId := e.campaignId
    tags := e.tags
    createdAt := now
    updatedAt := now }

/-- `_schedule_next_recurrence`: compute the next timestamp from the previous
target timestamp; do nothing when the recurrence type has no interval, when
the next timestamp exceeds `recurrence_end`, or when the occurrence counter
is exhausted (`<= 0`); otherwise save exactly one successor record. -/
def scheduleNextRecurrence (s : EmailStore) (e : ScheduledEmail)
    (freshId : String) (now : Int) : EmailStore :=
  match nextTime e with
  | none => s
  | some nt =>
      let endExceeded : Bool :=
        match e.recurrenceEnd with | some re => nt > re | none => false
      let countExhausted : Bool :=
        match e.recurrenceCount with | some c => c ≤ 0 | none => false
      if endExceeded then s
      else if countExhausted then s
      else saveEmail s (mkSuccessor e freshId nt now) now

/-- Result value of one `send_email` task execution. `retryRaise` is the
re-raise that asks Celery for another retry; `failedPerm` is the
`{"status": "failed", "retries": n}` return (no re-raise). -/
inductive SendOutcome
  | notFound
  | skipped (st : EmailStatus)
  | sentOk (provider : String) (messageId : Option String)
  | retryRaise (err : String)
  | failedPerm (retries : Nat)
deriving DecidableEq, Repr

/-- Store, outcome and number of provider-chain invocations of one task
execution. -/
structure TaskResult where
  store : EmailStore
  outcome : SendOutcome
  providerCalls : Nat
deriving DecidableEq, Repr

/-- One execution of the `send_email` Celery task, with the provider-chain
result abstracted into `sendResult` and the successor uuid into `freshId`.
Mirrors `tasks.send_email`:
* absent record → error return, no provider call;
* record already `SENT`/`CANCELLED` → idempotent skip, no provider call;
* otherwise mark `SENDING`, invoke the chain once;
* on success mark `SENT` (recording the message id) and, for a recurring
  record, expand the next occurrence;
* on `EmailProviderError` pick the new status from the pre-attempt
  `retry_count` (`PENDING` while `< max_retries`, else `FAILED`), record the
  error (which increments `retry_count`), then re-raise for a Celery retry
  iff the post-increment count (the task aliases the stored record) is still
  `< max_retries`. -/
def sendEmailTask (s : EmailStore) (emailId : String)
    (sendResult : Except String ProviderSuccess) (freshId : String)
    (now : Int) : TaskResult :=
  match getEmail s emailId with
  | none => ⟨s, .notFound, 0⟩
  | some email =>
      if email.status = .sent ∨ email.status = .cancelled then
        ⟨s, .skipped email.status, 0⟩
      else
        let s1 := (updateEmailStatus s emailId now .sending none none).1
        match sendResult with
        | .ok r =>
            let s2 := (updateEmailStatus s1 emailId now .sent none r.messageId).1
            let s3 :=
              if email.recurrence ≠ .norec then
                scheduleNextRecurrence s2 email freshId now
              else s2
            ⟨s3, .sentOk r.provider r.messageId, 1⟩
        | .error err =>
            let newStatus :=
              if email.retryCount < email.maxRetries then EmailStatus.pending
              else EmailStatus.failed
            let s2 := (updateEmailStatus s1 emailId now newStatus (some err) none).1
            let rcAfter :=
              if pyTruthy (some err) then email.retryCount + 1 else email.retryCount
            if rcAfter < email.maxRetries then ⟨s2, .retryRaise err, 1⟩
            else ⟨s2, .failedPerm rcAfter, 1⟩

/-- `cleanup_old_emails`: delete every record in a terminal state whose
`updated_at` is strictly older than `now - days_to_keep` days; returns the
new store and the deleted count. -/
def cleanupOldEmails (s : EmailStore) (now : Int) (daysToKeep : Int) :
    EmailStore × Nat :=
  let cutoff := now - daysToKeep * oneDay
  let doomed := fun (e : ScheduledEmail) =>
    (e.status = .sent ∨ e.status = .failed ∨ e.status = .cancelled) ∧
      e.updatedAt < cutoff
  ({ s with emails := s.emails.filter (fun e => ¬ doomed e) },
   (s.emails.filter (fun e => doomed e)).length)

/-- `process_pending_emails` (one dispatch scan): fetch the due batch
(`limit=100`) and mark each selected record `QUEUED` (the Celery enqueue
itself is outside the store). -/
def processPendingEmails (s : EmailStore) (now : Int) : EmailStore × Nat :=
  let due := getPendingEmails s now 100
  (due.foldl (fun st e => (updateEmailStatus st e.id now .queued none none).1) s,
   due.length)

/-! ### API endpoints (`router.py`) -/

/-- `DELETE /email/scheduled/{id}` (`cancel_scheduled_email`): 404 when
absent, 400 when the status is not `PENDING`/`QUEUED`, otherwise set the
status to `CANCELLED`. The error value is the HTTP status code. -/
def cancelScheduledEmail (s : EmailStore) (emailId : String) (now : Int) :
    EmailStore × Except Nat String :=
  match getEmail s emailId with
  | none => (s, .error 404)
  | some e =>
      if e.status = .pending ∨ e.status = .queued then
        ((updateEmailStatus s emailId now .cancelled none none).1, .ok "cancelled")
      else (s, .error 400)

/-- `POST /email/scheduled/{id}/send-now` (`send_email_now`): same
preconditions as cancel; on success the record is marked `QUEUED` and handed
to the urgent queue (the enqueue's failure path, a 500, is not modelled). -/
def sendEmailNow (s : EmailStore) (emailId : String) (now : Int) :
    EmailStore × Except Nat String :=
  match getEmail s emailId with
  | none => (s, .error 404)
  | some e =>
      if e.status = .pending ∨ e.status = .queued then
        ((updateEmailStatus s emailId now .queued none none).1, .ok "queued")
      else (s, .error 400)

/-- `DELETE /email/templates/{id}` (`delete_template`): 404 when absent,
403 for a system template (the store is not touched), otherwise delete via
the store. -/
def deleteTemplateEndpoint (s : EmailStore) (templateId : String) :
    EmailStore × Except Nat String :=
  match getTemplate s templateId with
  | none => (s, .error 404)
  | some t =>
      if t.isSystem then (s, .error 403)
      else ((deleteTemplate s templateId).1, .ok "deleted")

/-- `ScheduleEmailRequest` from `models.py`: the API request model. It has
no `recurrence_count` field (compare `ScheduledEmail`). -/
structure ScheduleEmailRequest where
  subject : String
  bodyHtml : Option String := none
  bodyText : Option String := none
  templateId : Option String := none
  templateVariables : Option (List (String × String)) := none
  recipients : List EmailRecipient
  fromName : Option String := none
  replyTo : Option String := none
  scheduledAt : Int
  timezone : String := "UTC"
  recurrence : RecurrenceType := .norec
  recurrenceEnd : Option Int := none
  priority : EmailPriority := .normal
  policyId : Option String := none
  campaignId : Option String := none
  tags : List String := []
deriving DecidableEq, Repr

/-- The `ScheduledEmail(...)` constructed by `POST /email/schedule`
(`router.schedule_email`, lines 86–105): every keyword passed there, with
pydantic defaults for the rest — in particular `recurrence_count` is not
passed and stays `None`. `subject`/`bodyHtml`/`bodyText` are the
template-resolved values. -/
def mkScheduledEmail (req : ScheduleEmailRequest) (subject : String)
    (bodyHtml bodyText : Option String) (userId fromEmail freshId : String)
    (now : Int) : ScheduledEmail :=
  { id := freshId
    subject := subject
    bodyHtml := bodyHtml
    bodyText := bodyText
    templateId := req.templateId
    templateVariables := req.templateVariables
    fromEmail := fromEmail
    fromName := req.fromName
    recipients := req.recipients
    replyTo := req.replyTo
    scheduledAt := req.scheduledAt
    timezone := req.timezone
    recurrence := req.recurrence
    recurrenceEnd := req.recurrenceEnd
    priority := req.priority
    policyId := req.policyId
    userId := userId
    campaignId := req.campaignId
    tags := req.tags
    createdAt := now
    updatedAt := now }

/-- The content-resolution prefix of `POST /email/schedule`
(`router.schedule_email`, lines 57–78): template lookup (404 when unknown)
and rendering of subject/html/text (400 on a template error). Jinja
rendering is abstracted into the pure `render` argument. -/
def resolveContent
    (render : String → List (String × String) → Except String String)
    (s : EmailStore) (req : ScheduleEmailRequest) :
    Except Nat (String × Option String × Option String) :=
  match req.templateId with
  | none => .ok (req.subject, req.bodyHtml, req.bodyText)
  | some tid =>
      match getTemplate s tid with
      | none => .error 404
      | some t =>
          let vs := req.templateVariables.getD []
          match render t.subjectTemplate vs, render t.bodyHtmlTemplate vs with
          | .ok subj, .ok bh =>
              match t.bodyTextTemplate with
              | some btT =>
                  match render btT vs with
                  | .ok bt => .ok (subj, some bh, some bt)
                  | .error _ => .error 400
              | none => .ok (subj, some bh, req.bodyText)
          | _, _ => .error 400

/-- `POST /email/schedule` (`router.schedule_email`): resolve content, run
the `not subject` / `not body` validations (400), then construct the record
and `save_email` it. uuid4 is abstracted into `freshId`. -/
def scheduleEmailEndpoint
    (render : String → List (String × String) → Except String String)
    (s : EmailStore) (req : ScheduleEmailRequest)
    (userId fromEmail freshId : String) (now : Int) :
    EmailStore × Except Nat String :=
  match resolveContent render s req with
  | .error c => (s, .error c)
  | .ok (subj, bh, bt) =>
      if subj = "" then (s, .error 400)
      else if ¬ pyTruthy bh ∧ ¬ pyTruthy bt then (s, .error 400)
      else
        let email := mkScheduledEmail req subj bh bt userId fromEmail freshId now
        (saveEmail s email now, .ok email.id)

/-! ### Concrete sample data used by witnesses and counterexamples -/

/-- A minimal recipient. -/
def sampleRecipient : EmailRecipient := { email := "client@example.com" }

/-- A freshly scheduled email with the pydantic defaults
(`status=pending`, `retry_count=0`, `max_retries=3`). -/
def baseEmail : ScheduledEmail :=
  { id := "e1", subject := "Renewal", bodyText := some "Hi",
    fromEmail := "broker@example.com", recipients := [sampleRecipient],
    scheduledAt := 1000, userId := "u1" }

/-- Store holding just `baseEmail`. -/
def oneEmailStore : EmailStore := { emails := [baseEmail] }

/-- Store holding `baseEmail` already sent. -/
def sentStore : EmailStore := { emails := [{ baseEmail with status := .sent }] }

/-- Store holding `baseEmail` already failed permanently. -/
def failedStore : EmailStore :=
  { emails := [{ baseEmail with status := .failed, retryCount := 4 }] }

/-- One failing send attempt against `baseEmail`'s id. -/
def failStep (st : EmailStore) : EmailStore :=
  (sendEmailTask st "e1" (.error "boom") "f" 2000).store

/-- Mixed-priority due records: a low one scheduled earliest, a high one,
and an urgent one scheduled latest. -/
def urgentEmail : ScheduledEmail :=
  { baseEmail with id := "u", priority := .urgent, scheduledAt := 900 }

def lowEmail : ScheduledEmail :=
  { baseEmail with id := "l", priority := .low, scheduledAt := 100 }

def highEmail : ScheduledEmail :=
  { baseEmail with id := "h", priority := .high, scheduledAt := 500 }

def mixedStore : EmailStore := { emails := [lowEmail, highEmail, urgentEmail] }

/-- Daily-recurring email with two remaining occurrences. -/
def dailyEmail : ScheduledEmail :=
  { baseEmail with recurrence := .daily, recurrenceCount := some 2 }

def dailyStore : EmailStore := { emails := [dailyEmail] }

/-- Chain with a failing primary and a succeeding secondary. -/
def twoProviderService : EmailService :=
  { providers := [⟨"smtp", .error "smtp down"⟩,
                  ⟨"sendgrid", .ok ⟨"sendgrid", some "sg1"⟩⟩],
    primaryProvider := "smtp" }

/-- Chain in which every provider fails. -/
def allFailService : EmailService :=
  { providers := [⟨"smtp", .error "smtp down"⟩, ⟨"sendgrid", .error "quota"⟩],
    primaryProvider := "smtp" }

/-- A system template and a user template. -/
def systemTemplate : EmailTemplate :=
  { id := "renewal_reminder_30", name := "30-Day Renewal Reminder",
    subjectTemplate := "Policy Renewal Reminder", bodyHtmlTemplate := "<p>Hi</p>",
    isSystem := true }

def userTemplate : EmailTemplate :=
  { id := "custom1", name := "Custom", subjectTemplate := "s",
    bodyHtmlTemplate := "b", userId := some "u1" }

def templateStore : EmailStore := { templates := [systemTemplate, userTemplate] }

/-- A plain (no-template) daily scheduling request. -/
def sampleRequest : ScheduleEmailRequest :=
  { subject := "Hi", bodyText := some "Hello", recipients := [sampleRecipient],
    scheduledAt := 1000, recurrence := .daily }

/-- A sent record whose `updated_at` sits exactly at the 90-day cutoff of a
cleanup run at time 100000000. -/
def cutoffSentEmail : ScheduledEmail :=
  { baseEmail with
    id := "s",
    status := .sent,
    updatedAt := 100000000 - 90 * oneDay }

def cutoffSentStore : EmailStore := { emails := [cutoffSentEmail] }

/-! ### Helper lemmas -/

/-- Replacing exactly the records with a given id leaves `find?` on that id
pointing at the replacement, provided the replacement keeps the id. -/
theorem find?_map_replace (l : List ScheduledEmail) (idv : String)
    (e e' : ScheduledEmail) (h : l.find? (fun x => x.id == idv) = some e)
    (hid : e'.id = e.id) :
    (l.map (fun x => if x.id == idv then e' else x)).find?
      (fun x => x.id == idv) = some e' := by
  induction l with
  | nil => simp at h
  | cons a t ih =>
      by_cases ha : (a.id == idv) = true
      · simp only [List.find?_cons, ha] at h
        injection h with he
        subst he
        have he' : (e'.id == idv) = true := by
          rw [hid]; exact ha
        simp only [List.map_cons, ha, if_true, List.find?_cons, he']
      · simp only [List.find?_cons, ha] at h
        simp only [List.map_cons, ha, if_false, Bool.false_eq_true, List.find?_cons]
        exact ih h

/-- `applyStatusUpdate` keeps the record id. -/
theorem applyStatusUpdate_id (now : Int) (st : EmailStatus)
    (err msg : Option String) (e : ScheduledEmail) :
    (applyStatusUpdate now st err msg e).id = e.id := rfl

/-- Looking up the updated id after `update_email_status` yields the record
with the mutation applied. -/
theorem getEmail_updateEmailStatus (s : EmailStore) (emailId : String)
    (now : Int) (st : EmailStatus) (err msg : Option String)
    (e : ScheduledEmail) (h : getEmail s emailId = some e) :
    getEmail (updateEmailStatus s emailId now st err msg).1 emailId =
      some (applyStatusUpdate now st err msg e) := by
  unfold getEmail at h ⊢
  unfold updateEmailStatus
  rw [h]
  exact find?_map_replace _ _ _ _ h (applyStatusUpdate_id ..)

/-- The send task skips a record already `sent` or `cancelled`: no store
change, no provider call (`tasks.py` lines 90–95). -/
theorem sendTask_skip_of_terminal (s : EmailStore) (emailId : String)
    (res : Except String ProviderSuccess) (freshId : String) (now : Int)
    (e : ScheduledEmail) (hfind : getEmail s emailId = some e)
    (hst : e.status = .sent ∨ e.status = .cancelled) :
    sendEmailTask s emailId res freshId now = ⟨s, .skipped e.status, 0⟩ := by
  unfold sendEmailTask
  rw [hfind]
  simp [hst]

/-- Every record selected by `get_pending_emails` is a due pending record of
the store. -/
theorem mem_getPendingEmails (s : EmailStore) (before : Int) (limit : Nat)
    (e : ScheduledEmail) (h : e ∈ getPendingEmails s before limit) :
    e.status = .pending ∧ e.scheduledAt ≤ before ∧ e ∈ s.emails := by
  unfold getPendingEmails at h
  have h1 := List.mem_of_mem_take h
  have h2 := (List.perm_insertionSort dueLe _).mem_iff.mp h1
  have h3 := List.mem_filter.mp h2
  refine ⟨?_, ?_, h3.1⟩
  · have := h3.2
    simp only [Bool.and_eq_true, beq_iff_eq, decide_eq_true_eq] at this
    exact this.1
  · have := h3.2
    simp only [Bool.and_eq_true, beq_iff_eq, decide_eq_true_eq] at this
    exact this.2

/-! ### Claim C4 -/

/-- **C4.** For every record whose status is `sent` or `cancelled`, invoking
the send task on its id makes no provider call and leaves the record and the
rest of the store unchanged; the task returns a skipped result. -/
theorem sendTask_idempotent_on_sent_cancelled (s : EmailStore)
    (emailId : String) (res : Except String ProviderSuccess) (freshId : String)
    (now : Int) (e : ScheduledEmail) (hfind : getEmail s emailId = some e)
    (hst : e.status = .sent ∨ e.status = .cancelled) :
    (sendEmailTask s emailId res freshId now).store = s ∧
    (sendEmailTask s emailId res freshId now).providerCalls = 0 ∧
    (sendEmailTask s emailId res freshId now).outcome = .skipped e.status := by
  rw [sendTask_skip_of_terminal s emailId res freshId now e hfind hst]
  exact ⟨rfl, rfl, rfl⟩

/-- Witness for C4: a concrete already-sent record is skipped untouched. -/
theorem sendTask_idempotent_on_sent_cancelled_witness :
    (sendEmailTask sentStore "e1" (.ok ⟨"smtp", some "m"⟩) "f" 2000).store =
      sentStore ∧
    (sendEmailTask sentStore "e1" (.ok ⟨"smtp", some "m"⟩) "f" 2000).providerCalls = 0 ∧
    (sendEmailTask sentStore "e1" (.ok ⟨"smtp", some "m"⟩) "f" 2000).outcome =
      .skipped ({ baseEmail with status := .sent } : ScheduledEmail).status :=
  sendTask_idempotent_on_sent_cancelled sentStore "e1" (.ok ⟨"smtp", some "m"⟩)
    "f" 2000 { baseEmail with status := .sent } (by decide) (Or.inl rfl)

/-! ### Claim C7 -/

/-- **C7.** Cleanup with retention window `daysToKeep` deletes a record iff
its status is terminal (`sent`/`failed`/`cancelled`) and its `updated_at` is
strictly older than the cutoff `now - daysToKeep` days; a terminal record at
exactly the cutoff is kept, and a pending record is never deleted. -/
theorem cleanup_deletes_exactly_old_terminal (s : EmailStore)
    (now daysToKeep : Int) :
    (∀ e, e ∈ (cleanupOldEmails s now daysToKeep).1.emails ↔
        (e ∈ s.emails ∧
          ¬((e.status = .sent ∨ e.status = .failed ∨ e.status = .cancelled) ∧
            e.updatedAt < now - daysToKeep * oneDay))) ∧
    (∀ e, e ∈ s.emails → e.status = .pending →
        e ∈ (cleanupOldEmails s now daysToKeep).1.emails) ∧
    (∀ e, e ∈ s.emails → e.updatedAt = now - daysToKeep * oneDay →
        e ∈ (cleanupOldEmails s now daysToKeep).1.emails) ∧
    (∀ e, e ∈ s.emails → e.status = .sent →
        e.updatedAt = now - daysToKeep * oneDay - 1 →
        e ∉ (cleanupOldEmails s now daysToKeep).1.emails) := by
  have hmain : ∀ e, e ∈ (cleanupOldEmails s now daysToKeep).1.emails ↔
      (e ∈ s.emails ∧
        ¬((e.status = .sent ∨ e.status = .failed ∨ e.status = .cancelled) ∧
          e.updatedAt < now - daysToKeep * oneDay)) := by
    intro e
    unfold cleanupOldEmails
    simp only [List.mem_filter, decide_not, Bool.not_eq_true',
      decide_eq_false_iff_not]
  refine ⟨hmain, ?_, ?_, ?_⟩
  · intro e hme hp
    refine (hmain e).mpr ⟨hme, ?_⟩
    rintro ⟨hterm | hterm | hterm, -⟩ <;> simp [hp] at hterm
  · intro e hme heq
    refine (hmain e).mpr ⟨hme, ?_⟩
    rintro ⟨-, hlt⟩
    omega
  · intro e hme hsent heq hcontra
    rcases (hmain e).mp hcontra with ⟨-, hnot⟩
    exact hnot ⟨Or.inl hsent, by omega⟩

/-- Witness for C7: on a concrete store, the record at exactly the cutoff is
kept. -/
theorem cleanup_deletes_exactly_old_terminal_witness :
    cutoffSentEmail ∈
      (cleanupOldEmails cutoffSentStore 100000000 90).1.emails :=
  (cleanup_deletes_exactly_old_terminal cutoffSentStore 100000000 90).2.2.1
    cutoffSentEmail (by decide) (by decide)

/-! ### Claim C10 -/

/-- **C10.** Every email created through `POST /email/schedule` is stored
with `recurrence_count = None` (the request model has no counter field), so
its recurrence expansion is bounded only by `recurrence_end`, never by an
occurrence counter; successors of a counter-less record are counter-less
again. -/
theorem api_scheduled_email_has_no_recurrence_count
    (render : String → List (String × String) → Except String String)
    (s : EmailStore) (req : ScheduleEmailRequest)
    (userId fromEmail freshId : String) (now : Int) :
    (∀ subj bh bt,
        (mkScheduledEmail req subj bh bt userId fromEmail freshId
            now).recurrenceCount = none) ∧
    (∀ s' rid,
        scheduleEmailEndpoint render s req userId fromEmail freshId now =
          (s', .ok rid) →
        ∃ subj bh bt,
          s' = saveEmail s
              (mkScheduledEmail req subj bh bt userId fromEmail freshId now)
              now ∧
          rid = freshId) ∧
    (∀ (s₂ : EmailStore) (e : ScheduledEmail) (fid : String) (t nt : Int),
        e.recurrenceCount = none → nextTime e = some nt →
        ((∃ re, e.recurrenceEnd = some re ∧ nt > re) →
            scheduleNextRecurrence s₂ e fid t = s₂) ∧
        ((∀ re ∈ e.recurrenceEnd, nt ≤ re) →
            scheduleNextRecurrence s₂ e fid t =
              saveEmail s₂ (mkSuccessor e fid nt t) t ∧
            (mkSuccessor e fid nt t).recurrenceCount = none)) := by
  refine ⟨fun _ _ _ => rfl, ?_, ?_⟩
  · intro s' rid h
    unfold scheduleEmailEndpoint at h
    cases hr : resolveContent render s req with
    | error c =>
        rw [hr] at h
        simp at h
    | ok triple =>
        obtain ⟨subj, bh, bt⟩ := triple
        rw [hr] at h
        dsimp only at h
        by_cases hsub : subj = ""
        · rw [if_pos hsub] at h
          simp at h
        · rw [if_neg hsub] at h
          by_cases hbody : ¬ pyTruthy bh = true ∧ ¬ pyTruthy bt = true
          · rw [if_pos hbody] at h
            simp at h
          · rw [if_neg hbody] at h
            injection h with h1 h2
            injection h2 with h2
            exact ⟨subj, bh, bt, h1.symm, h2.symm⟩
  · intro s₂ e fid t nt hcount hnt
    constructor
    · rintro ⟨re, hre, hgt⟩
      unfold scheduleNextRecurrence
      rw [hnt]
      simp [hre, hgt]
    · intro hle
      unfold scheduleNextRecurrence
      rw [hnt]
      have hend : (match e.recurrenceEnd with
          | some re => decide (nt > re) | none => false) = false := by
        cases hre : e.recurrenceEnd with
        | none => rfl
        | some re =>
            simp only [decide_eq_false_iff_not, not_lt]
            exact hle re (by rw [hre]; rfl)
      have hcnt : (match e.recurrenceCount with
          | some c => decide (c ≤ 0) | none => false) = false := by
        rw [hcount]
      simp only [hend, hcnt, if_false, Bool.false_eq_true]
      refine ⟨trivial, ?_⟩
      unfold mkSuccessor
      rw [hcount]

/-- Witness for C10: the concrete daily request stores a counter-less record,
and its expansion creates a counter-less successor. -/
theorem api_scheduled_email_has_no_recurrence_count_witness :
    (∃ subj bh bt,
        (scheduleEmailEndpoint (fun t _ => .ok t) {} sampleRequest "u1"
            "b@x.com" "n1" 500).1 =
          saveEmail {}
            (mkScheduledEmail sampleRequest subj bh bt "u1" "b@x.com" "n1" 500)
            500 ∧
        ("n1" : String) = "n1") ∧
    (mkScheduledEmail sampleRequest "Hi" none (some "Hello") "u1" "b@x.com"
        "n1" 500).recurrenceCount = none := by
  constructor
  · exact (api_scheduled_email_has_no_recurrence_count (fun t _ => .ok t) {}
        sampleRequest "u1" "b@x.com" "n1" 500).2.1
      (scheduleEmailEndpoint (fun t _ => .ok t) {} sampleRequest "u1"
          "b@x.com" "n1" 500).1
      "n1" (by decide)
  · exact (api_scheduled_email_has_no_recurrence_count (fun t _ => .ok t) {}
      sampleRequest "u1" "b@x.com" "n1" 500).1 "Hi" none (some "Hello")

/-! ### Claim C9 -/

/-- With distinct template ids, erasing the found match leaves no record with
that id behind. -/
theorem find?_eraseP_eq_none (l : List EmailTemplate) (tid : String)
    (hnd : (l.map (fun t => t.id)).Nodup) (t : EmailTemplate)
    (h : l.find? (fun x => x.id == tid) = some t) :
    (l.eraseP (fun x => x.id == tid)).find? (fun x => x.id == tid) = none := by
  induction l with
  | nil => simp at h
  | cons a rest ih =>
      simp only [List.map_cons, List.nodup_cons] at hnd
      by_cases ha : (a.id == tid) = true
      · simp only [List.eraseP_cons, ha, cond_true]
        rw [List.find?_eq_none]
        intro x hx hpx
        apply hnd.1
        have hx' : x.id = tid := by simpa using hpx
        have ha' : a.id = tid := by simpa using ha
        rw [ha', ← hx']
        exact List.mem_map_of_mem _ hx
      · simp only [List.find?_cons, ha] at h
        simp only [List.eraseP_cons, ha, cond_false, List.find?_cons]
        exact ih hnd.2 h

/-- **C9.** Deleting a template: a system template is refused with 403 (not a
silent no-op — the store keeps it, and the store-level delete reports
failure); an existing non-system template is removed and reported deleted; an
absent template id yields 404. -/
theorem template_delete_rules (s : EmailStore) (tid : String) :
    (getTemplate s tid = none →
        deleteTemplateEndpoint s tid = (s, .error 404) ∧
        deleteTemplate s tid = (s, false)) ∧
    (∀ t, getTemplate s tid = some t → t.isSystem = true →
        deleteTemplateEndpoint s tid = (s, .error 403) ∧
        deleteTemplate s tid = (s, false) ∧
        getTemplate (deleteTemplateEndpoint s tid).1 tid = some t) ∧
    (∀ t, getTemplate s tid = some t → t.isSystem = false →
        (deleteTemplateEndpoint s tid).2 = .ok "deleted" ∧
        (deleteTemplate s tid).2 = true ∧
        ((s.templates.map (fun x => x.id)).Nodup →
            getTemplate (deleteTemplateEndpoint s tid).1 tid = none) ∧
        (∀ t', t' ∈ s.templates → ¬(t'.id == tid) = true →
            t' ∈ (deleteTemplateEndpoint s tid).1.templates)) := by
  refine ⟨?_, ?_, ?_⟩
  · intro h
    constructor
    · unfold deleteTemplateEndpoint
      rw [h]
    · unfold deleteTemplate
      unfold getTemplate at h
      rw [h]
  · intro t h ht
    have hend : deleteTemplateEndpoint s tid = (s, .error 403) := by
      unfold deleteTemplateEndpoint
      rw [h]
      simp [ht]
    refine ⟨hend, ?_, ?_⟩
    · unfold deleteTemplate
      unfold getTemplate at h
      rw [h]
      simp [ht]
    · rw [hend]
      exact h
  · intro t h ht
    have hdel : deleteTemplate s tid =
        ({ s with templates := s.templates.eraseP (fun x => x.id == tid) },
         true) := by
      unfold deleteTemplate
      unfold getTemplate at h
      rw [h]
      simp [ht]
    have hend : deleteTemplateEndpoint s tid =
        ({ s with templates := s.templates.eraseP (fun x => x.id == tid) },
         .ok "deleted") := by
      unfold deleteTemplateEndpoint
      rw [h]
      simp [ht, hdel]
    refine ⟨by rw [hend], by rw [hdel], ?_, ?_⟩
    · intro hnd
      rw [hend]
      unfold getTemplate at h ⊢
      exact find?_eraseP_eq_none s.templates tid hnd t h
    · intro t' hmem hne
      rw [hend]
      exact (List.mem_eraseP_of_neg (p := fun x => x.id == tid) (a := t')
        (l := s.templates) hne).mpr hmem

/-- Witness for C9: on the concrete template store, the system template is
refused with 403 and kept, and the user template is deleted. -/
theorem template_delete_rules_witness :
    (deleteTemplateEndpoint templateStore "renewal_reminder_30" =
        (templateStore, .error 403) ∧
      deleteTemplate templateStore "renewal_reminder_30" =
        (templateStore, false) ∧
      getTemplate (deleteTemplateEndpoint templateStore
          "renewal_reminder_30").1 "renewal_reminder_30" =
        some systemTemplate) ∧
    ((deleteTemplateEndpoint templateStore "custom1").2 = .ok "deleted") := by
  constructor
  · exact (template_delete_rules templateStore "renewal_reminder_30").2.1
      systemTemplate (by decide) (by decide)
  · exact ((template_delete_rules templateStore "custom1").2.2
      userTemplate (by decide) (by decide)).1

/-! ### Claim C8 -/

/-- **C8.** Cancellation of a scheduled email: 404 when the record does not
exist; 400 with the store unchanged when the status is not
`pending`/`queued`; otherwise it succeeds, the status becomes `cancelled`,
and the cancelled record is terminal (the send task skips it without a
provider call, cancel and send-now reject it with 400, and the dispatch scan
never selects it). -/
theorem cancel_endpoint_rules (s : EmailStore) (emailId : String) (now : Int) :
    (getEmail s emailId = none →
        cancelScheduledEmail s emailId now = (s, .error 404)) ∧
    (∀ e, getEmail s emailId = some e →
        ¬(e.status = .pending ∨ e.status = .queued) →
        cancelScheduledEmail s emailId now = (s, .error 400)) ∧
    (∀ e, getEmail s emailId = some e →
        (e.status = .pending ∨ e.status = .queued) →
        (cancelScheduledEmail s emailId now).2 = .ok "cancelled" ∧
        getEmail (cancelScheduledEmail s emailId now).1 emailId =
          some (applyStatusUpdate now .cancelled none none e) ∧
        (applyStatusUpdate now .cancelled none none e).status = .cancelled ∧
        (∀ res fid t2,
            sendEmailTask (cancelScheduledEmail s emailId now).1 emailId res
                fid t2 =
              ⟨(cancelScheduledEmail s emailId now).1, .skipped .cancelled, 0⟩) ∧
        (∀ t2, cancelScheduledEmail (cancelScheduledEmail s emailId now).1
            emailId t2 = ((cancelScheduledEmail s emailId now).1, .error 400)) ∧
        (∀ t2, sendEmailNow (cancelScheduledEmail s emailId now).1 emailId t2 =
            ((cancelScheduledEmail s emailId now).1, .error 400)) ∧
        (∀ t2 lim, applyStatusUpdate now .cancelled none none e ∉
            getPendingEmails (cancelScheduledEmail s emailId now).1 t2 lim)) := by
  refine ⟨?_, ?_, ?_⟩
  · intro h
    unfold cancelScheduledEmail
    rw [h]
  · intro e h hst
    unfold cancelScheduledEmail
    rw [h]
    simp [hst]
  · intro e h hst
    have hcan : cancelScheduledEmail s emailId now =
        ((updateEmailStatus s emailId now .cancelled none none).1,
         .ok "cancelled") := by
      unfold cancelScheduledEmail
      rw [h]
      simp [hst]
    have hget : getEmail (cancelScheduledEmail s emailId now).1 emailId =
        some (applyStatusUpdate now .cancelled none none e) := by
      rw [hcan]
      exact getEmail_updateEmailStatus s emailId now .cancelled none none e h
    have key : ∀ s₂ : EmailStore,
        getEmail s₂ emailId = some (applyStatusUpdate now .cancelled none none e) →
        (∀ t2, cancelScheduledEmail s₂ emailId t2 = (s₂, .error 400)) ∧
        (∀ t2, sendEmailNow s₂ emailId t2 = (s₂, .error 400)) := by
      intro s₂ hg
      constructor <;> intro t2
      · unfold cancelScheduledEmail
        rw [hg]
        simp [applyStatusUpdate]
      · unfold sendEmailNow
        rw [hg]
        simp [applyStatusUpdate]
    refine ⟨by rw [hcan], hget, rfl, ?_, (key _ hget).1, (key _ hget).2, ?_⟩
    · intro res fid t2
      exact sendTask_skip_of_terminal _ emailId res fid t2 _ hget (Or.inr rfl)
    · intro t2 lim hmem
      have := (mem_getPendingEmails _ t2 lim _ hmem).1
      simp [applyStatusUpdate] at this

/-- Witness for C8: cancelling the concrete pending record succeeds and the
result is terminal for the send task. -/
theorem cancel_endpoint_rules_witness :
    (cancelScheduledEmail oneEmailStore "e1" 2000).2 = .ok "cancelled" ∧
    getEmail (cancelScheduledEmail oneEmailStore "e1" 2000).1 "e1" =
      some (applyStatusUpdate 2000 .cancelled none none baseEmail) ∧
    (applyStatusUpdate 2000 .cancelled none none baseEmail).status =
      .cancelled := by
  obtain ⟨h1, h2, h3, -⟩ :=
    (cancel_endpoint_rules oneEmailStore "e1" 2000).2.2 baseEmail (by decide)
      (Or.inl rfl)
  exact ⟨h1, h2, h3⟩

/-! ### Claim C1 -/

/-- C1 counterexample: starting from a fresh record with `max_retries = 3`,
three consecutive provider failures leave the record `pending` (not
`failed`) with `retry_count = 3`; the record is still selected by the due
scan and a 4th attempt does occur (it is not skipped and makes a provider
call). -/
theorem retry_exhaustion_counterexample :
    ((getEmail (failStep (failStep (failStep oneEmailStore))) "e1").map
        (fun x => (x.status, x.retryCount)) = some (.pending, 3)) ∧
    ("e1" ∈ (getPendingEmails (failStep (failStep (failStep oneEmailStore)))
        2000 100).map (fun x => x.id)) ∧
    ((sendEmailTask (failStep (failStep (failStep oneEmailStore))) "e1"
        (.error "boom") "f" 2000).providerCalls = 1) ∧
    ((getEmail (failStep (failStep (failStep (failStep oneEmailStore))))
        "e1").map (fun x => (x.status, x.retryCount)) =
      some (.failed, 4)) := by
  decide

/-- **C1 (amended).** Each failed provider attempt on a live record
increments `retry_count` by exactly one, and the status moves to `failed`
exactly on a failing attempt that *begins* with `retry_count ≥ max_retries`
(the new status is computed from the pre-increment count). Consequently,
with `max_retries = 3`, three consecutive provider failures leave the record
`pending` with `retry_count = 3`; a 4th attempt occurs and, failing, ends
the record in `failed` with `retry_count = 4`, after which the due scan
never selects it again. -/
theorem retry_exhaustion_amended (s : EmailStore)
    (emailId err freshId : String) (now : Int) (e : ScheduledEmail)
    (hfind : getEmail s emailId = some e)
    (hactive : ¬(e.status = .sent ∨ e.status = .cancelled))
    (herr : err ≠ "") :
    (∃ e', getEmail (sendEmailTask s emailId (.error err) freshId
          now).store emailId = some e' ∧
        e'.retryCount = e.retryCount + 1 ∧
        e'.status = (if e.retryCount < e.maxRetries then EmailStatus.pending
          else EmailStatus.failed)) ∧
    ((sendEmailTask s emailId (.error err) freshId now).outcome =
      (if e.retryCount + 1 < e.maxRetries then .retryRaise err
       else .failedPerm (e.retryCount + 1))) ∧
    ((sendEmailTask s emailId (.error err) freshId now).providerCalls = 1) ∧
    (((getEmail (failStep (failStep (failStep oneEmailStore))) "e1").map
        (fun x => (x.status, x.retryCount)) = some (.pending, 3)) ∧
      ((getEmail (failStep (failStep (failStep (failStep oneEmailStore))))
          "e1").map (fun x => (x.status, x.retryCount)) =
        some (.failed, 4)) ∧
      getPendingEmails (failStep (failStep (failStep (failStep
        oneEmailStore)))) 2000 100 = []) := by
  have hpy : pyTruthy (some err) = true := by
    simp [pyTruthy, herr]
  have hstep : sendEmailTask s emailId (.error err) freshId now =
      (if e.retryCount + 1 < e.maxRetries then
        ⟨(updateEmailStatus
            (updateEmailStatus s emailId now .sending none none).1 emailId now
            (if e.retryCount < e.maxRetries then EmailStatus.pending
             else EmailStatus.failed) (some err) none).1,
         .retryRaise err, 1⟩
       else
        ⟨(updateEmailStatus
            (updateEmailStatus s emailId now .sending none none).1 emailId now
            (if e.retryCount < e.maxRetries then EmailStatus.pending
             else EmailStatus.failed) (some err) none).1,
         .failedPerm (e.retryCount + 1), 1⟩) := by
    unfold sendEmailTask
    rw [hfind]
    simp only [if_neg hactive, hpy, if_true]
  have h1 : getEmail (updateEmailStatus s emailId now .sending none none).1
      emailId = some (applyStatusUpdate now .sending none none e) :=
    getEmail_updateEmailStatus s emailId now .sending none none e hfind
  have h2 : getEmail (updateEmailStatus
      (updateEmailStatus s emailId now .sending none none).1 emailId now
      (if e.retryCount < e.maxRetries then EmailStatus.pending
       else EmailStatus.failed) (some err) none).1 emailId =
      some (applyStatusUpdate now
        (if e.retryCount < e.maxRetries then EmailStatus.pending
         else EmailStatus.failed) (some err) none
        (applyStatusUpdate now .sending none none e)) :=
    getEmail_updateEmailStatus _ emailId now _ (some err) none _ h1
  have hstore : (sendEmailTask s emailId (.error err) freshId now).store =
      (updateEmailStatus
        (updateEmailStatus s emailId now .sending none none).1 emailId now
        (if e.retryCount < e.maxRetries then EmailStatus.pending
         else EmailStatus.failed) (some err) none).1 := by
    rw [hstep]
    split <;> rfl
  refine ⟨?_, ?_, ?_, by decide⟩
  · refine ⟨_, by rw [hstore]; exact h2, ?_, ?_⟩
    · simp [applyStatusUpdate, pyTruthy, herr]
    · simp [applyStatusUpdate]
  · rw [hstep]
    split <;> simp_all
  · rw [hstep]
    split <;> rfl

/-- Witness for C1 (amended): the first failing attempt on the concrete
fresh record increments the count to 1 and leaves it pending. -/
theorem retry_exhaustion_amended_witness :
    ∃ e', getEmail (sendEmailTask oneEmailStore "e1" (.error "boom") "f"
        2000).store "e1" = some e' ∧
      e'.retryCount = baseEmail.retryCount + 1 ∧
      e'.status = (if baseEmail.retryCount < baseEmail.maxRetries then
        EmailStatus.pending else EmailStatus.failed) :=
  (retry_exhaustion_amended oneEmailStore "e1" "boom" "f" 2000 baseEmail
    (by decide) (by decide) (by decide)).1

/-! ### Claim C5 -/

/-- C5 counterexample: `failed` is not terminal against the send task. The
guard in `tasks.send_email` checks only `SENT`/`CANCELLED`, so invoking the
task on a concrete `failed` record makes a provider call and, the provider
succeeding, transitions the record to `sent`. -/
theorem terminal_status_counterexample :
    ((getEmail failedStore "e1").map (fun x => x.status) = some .failed) ∧
    ((sendEmailTask failedStore "e1" (.ok ⟨"smtp", some "m"⟩) "f"
        2000).providerCalls = 1) ∧
    ((getEmail (sendEmailTask failedStore "e1" (.ok ⟨"smtp", some "m"⟩) "f"
        2000).store "e1").map (fun x => x.status) = some .sent) := by
  decide

/-- **C5 (amended).** `sent` and `cancelled` are never transitioned out of:
the send task skips them untouched, and cancel/send-now reject every
terminal status with 400; the dispatch scan selects only `pending` records,
and cleanup only deletes (it never rewrites a surviving record). The
exception forced by the code: the send task's guard does not cover
`failed`, so a send task invoked directly on a failed record's id makes a
provider call and, on success, transitions it to `sent`. -/
theorem terminal_status_amended (s : EmailStore) (emailId : String)
    (now : Int) :
    (∀ res fid e, getEmail s emailId = some e →
        e.status = .sent ∨ e.status = .cancelled →
        sendEmailTask s emailId res fid now = ⟨s, .skipped e.status, 0⟩) ∧
    (∀ e, getEmail s emailId = some e →
        (e.status = .sent ∨ e.status = .failed ∨ e.status = .cancelled) →
        cancelScheduledEmail s emailId now = (s, .error 400) ∧
        sendEmailNow s emailId now = (s, .error 400)) ∧
    (∀ before lim e, e ∈ getPendingEmails s before lim →
        e.status = .pending) ∧
    (∀ d e, e ∈ (cleanupOldEmails s now d).1.emails → e ∈ s.emails) ∧
    (∀ e r fid, getEmail s emailId = some e → e.status = .failed →
        e.recurrence = .norec →
        (sendEmailTask s emailId (.ok r) fid now).providerCalls = 1 ∧
        getEmail (sendEmailTask s emailId (.ok r) fid now).store emailId =
          some (applyStatusUpdate now .sent none r.messageId
            (applyStatusUpdate now .sending none none e)) ∧
        (applyStatusUpdate now .sent none r.messageId
          (applyStatusUpdate now .sending none none e)).status = .sent) := by
  refine ⟨?_, ?_, ?_, ?_, ?_⟩
  · intro res fid e hfind hst
    exact sendTask_skip_of_terminal s emailId res fid now e hfind hst
  · intro e hfind hterm
    have hnp : ¬(e.status = .pending ∨ e.status = .queued) := by
      rcases hterm with h | h | h <;> simp [h]
    constructor
    · unfold cancelScheduledEmail
      rw [hfind]
      simp [hnp]
    · unfold sendEmailNow
      rw [hfind]
      simp [hnp]
  · intro before lim e hmem
    exact (mem_getPendingEmails s before lim e hmem).1
  · intro d e hmem
    unfold cleanupOldEmails at hmem
    exact (List.mem_filter.mp hmem).1
  · intro e r fid hfind hst hrec
    have hactive : ¬(e.status = .sent ∨ e.status = .cancelled) := by
      simp [hst]
    have hstep : sendEmailTask s emailId (.ok r) fid now =
        ⟨(updateEmailStatus
            (updateEmailStatus s emailId now .sending none none).1 emailId now
            .sent none r.messageId).1,
         .sentOk r.provider r.messageId, 1⟩ := by
      unfold sendEmailTask
      rw [hfind]
      simp only [if_neg hactive, hrec, ne_eq, not_true_eq_false, if_false,
        Bool.false_eq_true]
    have h1 : getEmail (updateEmailStatus s emailId now .sending none
        none).1 emailId = some (applyStatusUpdate now .sending none none e) :=
      getEmail_updateEmailStatus s emailId now .sending none none e hfind
    have h2 : getEmail (updateEmailStatus
        (updateEmailStatus s emailId now .sending none none).1 emailId now
        .sent none r.messageId).1 emailId =
        some (applyStatusUpdate now .sent none r.messageId
          (applyStatusUpdate now .sending none none e)) :=
      getEmail_updateEmailStatus _ emailId now .sent none r.messageId _ h1
    rw [hstep]
    exact ⟨rfl, h2, rfl⟩

/-- Witness for C5 (amended): the concrete failed record is rejected by
cancel and send-now. -/
theorem terminal_status_amended_witness :
    cancelScheduledEmail failedStore "e1" 2000 = (failedStore, .error 400) ∧
    sendEmailNow failedStore "e1" 2000 = (failedStore, .error 400) :=
  (terminal_status_amended failedStore "e1" 2000).2.1
    { baseEmail with status := .failed, retryCount := 4 } (by decide)
    (Or.inr (Or.inl rfl))

/-! ### Claim C3 -/

/-- Store after a successful send of the daily record (fresh id `e2`). -/
def dailySend1 : EmailStore :=
  (sendEmailTask dailyStore "e1" (.ok ⟨"smtp", none⟩) "e2" 2000).store

/-- Store after a successful send of the first successor (fresh id `e3`). -/
def dailySend2 : EmailStore :=
  (sendEmailTask dailySend1 "e2" (.ok ⟨"smtp", none⟩) "e3" 3000).store

/-- Store after a successful send of the second successor. -/
def dailySend3 : EmailStore :=
  (sendEmailTask dailySend2 "e3" (.ok ⟨"smtp", none⟩) "e4" 4000).store

/-- **C3.** Recurrence expansion adds a fixed interval to the previous
target timestamp (daily +1 day, weekly +7 days, monthly +30 days); creates
nothing when the next timestamp exceeds `recurrence_end` or the occurrence
counter is exhausted; otherwise appends exactly one successor with the
fresh id, the parent's content/routing fields, the decremented counter and
`pending` status. Concretely, a daily record with `recurrence_count = 2`
produces exactly two successors over two successful sends and then stops. -/
theorem recurrence_expansion_spec (s : EmailStore) (e : ScheduledEmail)
    (freshId : String) (now : Int) :
    (e.recurrence = .daily → nextTime e = some (e.scheduledAt + oneDay)) ∧
    (e.recurrence = .weekly →
        nextTime e = some (e.scheduledAt + 7 * oneDay)) ∧
    (e.recurrence = .monthly →
        nextTime e = some (e.scheduledAt + 30 * oneDay)) ∧
    (∀ nt re, nextTime e = some nt → e.recurrenceEnd = some re → nt > re →
        scheduleNextRecurrence s e freshId now = s) ∧
    (∀ c, e.recurrenceCount = some c → c ≤ 0 →
        scheduleNextRecurrence s e freshId now = s) ∧
    (∀ nt, nextTime e = some nt → (∀ re ∈ e.recurrenceEnd, nt ≤ re) →
        (∀ c ∈ e.recurrenceCount, 0 < c) →
        (s.emails.any (fun x => x.id == freshId)) = false →
        (scheduleNextRecurrence s e freshId now).emails =
          s.emails ++ [mkSuccessor e freshId nt now] ∧
        (mkSuccessor e freshId nt now).id = freshId ∧
        (mkSuccessor e freshId nt now).status = .pending ∧
        (mkSuccessor e freshId nt now).scheduledAt = nt ∧
        (mkSuccessor e freshId nt now).recurrenceCount =
          (match e.recurrenceCount with
           | some c => if c ≠ 0 then some (c - 1) else none
           | none => none) ∧
        (mkSuccessor e freshId nt now).subject = e.subject ∧
        (mkSuccessor e freshId nt now).fromEmail = e.fromEmail ∧
        (mkSuccessor e freshId nt now).recipients = e.recipients ∧
        (mkSuccessor e freshId nt now).retryCount = 0) ∧
    ((dailySend1.emails.map (fun x => (x.id, x.status, x.recurrenceCount)) =
        [("e1", .sent, some 2), ("e2", .pending, some 1)]) ∧
      ((getEmail dailySend1 "e2").map (fun x => x.scheduledAt) =
        some (1000 + oneDay)) ∧
      (dailySend2.emails.map (fun x => (x.id, x.status, x.recurrenceCount)) =
        [("e1", .sent, some 2), ("e2", .sent, some 1),
         ("e3", .pending, some 0)]) ∧
      (dailySend3.emails.map (fun x => (x.id, x.status, x.recurrenceCount)) =
        [("e1", .sent, some 2), ("e2", .sent, some 1),
         ("e3", .sent, some 0)])) := by
  refine ⟨?_, ?_, ?_, ?_, ?_, ?_, by decide⟩
  · intro h
    unfold nextTime
    rw [h]
  · intro h
    unfold nextTime
    rw [h]
  · intro h
    unfold nextTime
    rw [h]
  · intro nt re hnt hre hgt
    unfold scheduleNextRecurrence
    rw [hnt]
    simp [hre, hgt]
  · intro c hc hle
    unfold scheduleNextRecurrence
    cases hnt : nextTime e with
    | none => rfl
    | some nt =>
        dsimp only
        have hcnt : (match e.recurrenceCount with
            | some c => decide (c ≤ 0) | none => false) = true := by
          rw [hc]
          simpa using hle
        rw [hcnt]
        split <;> simp
  · intro nt hnt hend hcount hfresh
    have hend' : (match e.recurrenceEnd with
        | some re => decide (nt > re) | none => false) = false := by
      cases hre : e.recurrenceEnd with
      | none => rfl
      | some re =>
          simp only [decide_eq_false_iff_not, not_lt]
          exact hend re (by rw [hre]; rfl)
    have hcount' : (match e.recurrenceCount with
        | some c => decide (c ≤ 0) | none => false) = false := by
      cases hc : e.recurrenceCount with
      | none => rfl
      | some c =>
          simp only [decide_eq_false_iff_not, not_le]
          exact hcount c (by rw [hc]; rfl)
    have hsched : scheduleNextRecurrence s e freshId now =
        saveEmail s (mkSuccessor e freshId nt now) now := by
      unfold scheduleNextRecurrence
      rw [hnt]
      simp only [hend', hcount', if_false, Bool.false_eq_true]
    have hsave : (saveEmail s (mkSuccessor e freshId nt now) now).emails =
        s.emails ++ [mkSuccessor e freshId nt now] := by
      unfold saveEmail
      have habs : (s.emails.any
          (fun x => x.id == (mkSuccessor e freshId nt now).id)) = false :=
        hfresh
      rw [habs]
      simp only [Bool.false_eq_true, if_false]
      rfl
    exact ⟨by rw [hsched, hsave], rfl, rfl, rfl, rfl, rfl, rfl, rfl, rfl⟩

/-- Witness for C3: the daily record's next time is one day after the
previous target, the exhausted-counter case creates nothing, and the live
case appends exactly the successor. -/
theorem recurrence_expansion_spec_witness :
    (nextTime dailyEmail = some (dailyEmail.scheduledAt + oneDay)) ∧
    (scheduleNextRecurrence dailyStore
        { dailyEmail with recurrenceCount := some 0 } "e2" 2000 =
      dailyStore) ∧
    ((scheduleNextRecurrence dailyStore dailyEmail "e2" 2000).emails =
      dailyStore.emails ++
        [mkSuccessor dailyEmail "e2" (dailyEmail.scheduledAt + oneDay) 2000]) := by
  refine ⟨?_, ?_, ?_⟩
  · exact (recurrence_expansion_spec dailyStore dailyEmail "e2" 2000).1 rfl
  · exact (recurrence_expansion_spec dailyStore
      { dailyEmail with recurrenceCount := some 0 } "e2" 2000).2.2.2.2.1 0 rfl
      (le_refl 0)
  · refine ((recurrence_expansion_spec dailyStore dailyEmail "e2"
      2000).2.2.2.2.2.1 (dailyEmail.scheduledAt + oneDay) rfl ?_ ?_
      (by decide)).1
    · intro re hre
      exact absurd hre (by simp [dailyEmail, baseEmail])
    · intro c hc
      have h2 : 2 = c := by simpa [dailyEmail, baseEmail] using hc
      omega

/-! ### Claim C6 -/

/-- One unfolding step of the loop on a succeeding head provider. -/
theorem chainLoop_cons_ok (p : Provider) (rest : List Provider)
    (r : ProviderSuccess) (h : p.behavior = .ok r) (last : Option String) :
    chainLoop (p :: rest) last = (.ok r, [p.name]) := by
  rw [chainLoop.eq_def]
  dsimp only
  rw [h]

/-- One unfolding step of the loop on a failing head provider. -/
theorem chainLoop_cons_error (p : Provider) (rest : List Provider)
    (e : String) (h : p.behavior = .error e) (last : Option String) :
    chainLoop (p :: rest) last =
      ((chainLoop rest (some e)).1, p.name :: (chainLoop rest (some e)).2) := by
  rw [chainLoop.eq_def]
  dsimp only
  rw [h]

/-- If every provider in the list fails, the loop raises the aggregate error
carrying the *last* provider's cause and records every attempt. -/
theorem chainLoop_allFailed (ps : List Provider) :
    ps ≠ [] → (∀ p ∈ ps, ∃ msg, p.behavior = .error msg) →
    ∀ last, ∃ lastP lastMsg, ps.getLast? = some lastP ∧
      lastP.behavior = .error lastMsg ∧
      chainLoop ps last =
        (.error (.allFailed lastMsg), ps.map (fun p => p.name)) := by
  induction ps with
  | nil => intro h; exact absurd rfl h
  | cons p rest ih =>
      intro _ hall last
      obtain ⟨msg, hmsg⟩ := hall p (List.mem_cons_self ..)
      cases rest with
      | nil =>
          refine ⟨p, msg, rfl, hmsg, ?_⟩
          rw [chainLoop_cons_error p [] msg hmsg last]
          rfl
      | cons q t =>
          obtain ⟨lastP, lastMsg, hlast, hbe, hloop⟩ :=
            ih (by simp) (fun x hx => hall x (List.mem_cons_of_mem _ hx))
              (some msg)
          refine ⟨lastP, lastMsg, ?_, hbe, ?_⟩
          · rw [List.getLast?_cons_cons]
            exact hlast
          · rw [chainLoop_cons_error p (q :: t) msg hmsg last, hloop]
            rfl

/-- The loop returns the first success, recording the failed prefix and the
succeeding provider as the attempts made. -/
theorem chainLoop_firstSuccess (pre : List Provider) :
    ∀ (p : Provider) (rest : List Provider) (r : ProviderSuccess),
      (∀ q ∈ pre, ∃ msg, q.behavior = .error msg) → p.behavior = .ok r →
      ∀ last, chainLoop (pre ++ p :: rest) last =
        (.ok r, pre.map (fun q => q.name) ++ [p.name]) := by
  induction pre with
  | nil =>
      intro p rest r _ hp last
      rw [List.nil_append, chainLoop_cons_ok p rest r hp last]
      rfl
  | cons q t ih =>
      intro p rest r hpre hp last
      obtain ⟨msg, hmsg⟩ := hpre q (List.mem_cons_self ..)
      have hrec := ih p rest r
        (fun x hx => hpre x (List.mem_cons_of_mem _ hx)) hp (some msg)
      rw [List.cons_append, chainLoop_cons_error q (t ++ p :: rest) msg hmsg
        last, hrec]
      simp

/-- If the loop reports the aggregate failure, every listed provider
failed. -/
theorem chainLoop_error_all (ps : List Provider) :
    ∀ (last : Option String) (msg : String),
      (chainLoop ps last).1 = .error (.allFailed msg) →
      ∀ p ∈ ps, ∃ m, p.behavior = .error m := by
  induction ps with
  | nil => intro last msg _ p hp; simp at hp
  | cons q t ih =>
      intro last msg h p hp
      cases hb : q.behavior with
      | ok r =>
          rw [chainLoop_cons_ok q t r hb last] at h
          simp at h
      | error e =>
          rcases List.mem_cons.mp hp with rfl | hp'
          · exact ⟨e, hb⟩
          · rw [chainLoop_cons_error q t e hb last] at h
            exact ih (some e) msg h p hp'

/-- Shape of `providers_to_try`: at most one fronted provider (the requested
one if registered, else the primary if registered), each drawn from the
registry, followed by the remaining registered providers in registration
order. -/
theorem providersToTry_eq (svc : EmailService) (requested : Option String) :
    ∃ front, (front = [] ∨ ∃ fp, front = [fp]) ∧
      (∀ q ∈ front, q ∈ svc.providers) ∧
      providersToTry svc requested =
        front ++ svc.providers.filter
          (fun p => ¬ front.any (fun q => q.name == p.name)) := by
  unfold providersToTry
  cases h1 : requested.bind
      (fun r => svc.providers.find? (fun p => p.name == r)) with
  | some p =>
      refine ⟨[p], Or.inr ⟨p, rfl⟩, ?_, rfl⟩
      intro q hq
      obtain ⟨r, -, hfind⟩ := Option.bind_eq_some.mp h1
      rcases List.mem_singleton.mp hq with rfl
      exact List.mem_of_find?_eq_some hfind
  | none =>
      cases h2 : svc.providers.find?
          (fun p => p.name == svc.primaryProvider) with
      | some p =>
          refine ⟨[p], Or.inr ⟨p, rfl⟩, ?_, rfl⟩
          intro q hq
          rcases List.mem_singleton.mp hq with rfl
          exact List.mem_of_find?_eq_some h2
      | none => exact ⟨[], Or.inl rfl, by simp, rfl⟩

/-- **C6.** The provider chain tries the requested provider first when it is
registered (otherwise the registered primary), then the remaining registered
providers in registration order, each at most once; it returns the first
succeeding provider's result (having attempted exactly the failed prefix and
the succeeding provider), and it raises the aggregate error carrying the
last underlying cause if and only if every tried provider fails. -/
theorem provider_chain_spec (svc : EmailService) (requested : Option String) :
    (∀ r pr, requested = some r →
        svc.providers.find? (fun p => p.name == r) = some pr →
        providersToTry svc requested =
          pr :: svc.providers.filter (fun p => ¬(pr.name == p.name)) ∧
        pr.name = r) ∧
    (∀ pp, requested.bind
          (fun r => svc.providers.find? (fun p => p.name == r)) = none →
        svc.providers.find? (fun p => p.name == svc.primaryProvider) =
          some pp →
        providersToTry svc requested =
          pp :: svc.providers.filter (fun p => ¬(pp.name == p.name))) ∧
    ((svc.providers.map (fun p => p.name)).Nodup →
        ((providersToTry svc requested).map (fun p => p.name)).Nodup) ∧
    (∀ p ∈ providersToTry svc requested, p ∈ svc.providers) ∧
    (∀ pre p rest r, providersToTry svc requested = pre ++ p :: rest →
        (∀ q ∈ pre, ∃ msg, q.behavior = .error msg) → p.behavior = .ok r →
        serviceSend svc requested =
          (.ok r, pre.map (fun q => q.name) ++ [p.name])) ∧
    ((∀ p ∈ providersToTry svc requested, ∃ msg, p.behavior = .error msg) →
        providersToTry svc requested ≠ [] →
        ∃ lastP lastMsg,
          (providersToTry svc requested).getLast? = some lastP ∧
          lastP.behavior = .error lastMsg ∧
          serviceSend svc requested =
            (.error (.allFailed lastMsg),
             (providersToTry svc requested).map (fun p => p.name))) ∧
    (∀ msg, (serviceSend svc requested).1 = .error (.allFailed msg) →
        ∀ p ∈ providersToTry svc requested, ∃ m, p.behavior = .error m) := by
  obtain ⟨front, hshape, hsub, heq⟩ := providersToTry_eq svc requested
  refine ⟨?_, ?_, ?_, ?_, ?_, ?_, ?_⟩
  · intro r pr hreq hfind
    constructor
    · have hb : requested.bind
          (fun r => svc.providers.find? (fun p => p.name == r)) = some pr := by
        rw [hreq]
        exact hfind
      unfold providersToTry
      rw [hb]
      simp [List.any_cons]
    · have := List.find?_some hfind
      simpa using this
  · intro pp hnone hfind
    unfold providersToTry
    rw [hnone, hfind]
    simp [List.any_cons]
  · intro hnd
    rw [heq, List.map_append, List.nodup_append]
    refine ⟨?_, ?_, ?_⟩
    · rcases hshape with rfl | ⟨fp, rfl⟩ <;> simp
    · exact hnd.sublist ((List.filter_sublist _).map _)
    · intro x hx hx'
      rcases hshape with rfl | ⟨fp, rfl⟩
      · simp at hx
      · rcases List.mem_singleton.mp (by simpa using hx) with rfl
        obtain ⟨q, hqmem, hqname⟩ := List.mem_map.mp hx'
        have hpred := (List.mem_filter.mp hqmem).2
        simp only [List.any_cons, List.any_nil, Bool.or_false,
          decide_eq_true_eq] at hpred
        exact hpred (by rw [hqname]; simp)
  · intro p hp
    rw [heq] at hp
    rcases List.mem_append.mp hp with hp | hp
    · exact hsub p hp
    · exact (List.mem_filter.mp hp).1
  · intro pre p rest r horder hpre hp
    unfold serviceSend
    rw [horder]
    exact chainLoop_firstSuccess pre p rest r hpre hp none
  · intro hall hne
    obtain ⟨lastP, lastMsg, hlast, hbe, hloop⟩ :=
      chainLoop_allFailed (providersToTry svc requested) hne hall none
    exact ⟨lastP, lastMsg, hlast, hbe, hloop⟩
  · intro msg h
    exact chainLoop_error_all (providersToTry svc requested) none msg h

/-- Witness for C6: on the concrete two-provider chain, the failing primary
is tried first and the succeeding secondary's result is returned with both
attempts observable; when both providers fail, the aggregate error carries
the last cause. -/
theorem provider_chain_spec_witness :
    serviceSend twoProviderService none =
      (.ok ⟨"sendgrid", some "sg1"⟩, ["smtp", "sendgrid"]) ∧
    ∃ lastP lastMsg,
      (providersToTry allFailService none).getLast? = some lastP ∧
      lastP.behavior = .error lastMsg ∧
      serviceSend allFailService none =
        (.error (.allFailed lastMsg),
         (providersToTry allFailService none).map (fun p => p.name)) := by
  constructor
  · exact (provider_chain_spec twoProviderService none).2.2.2.2.1
      [⟨"smtp", .error "smtp down"⟩] ⟨"sendgrid", .ok ⟨"sendgrid", some "sg1"⟩⟩
      [] ⟨"sendgrid", some "sg1"⟩ (by decide)
      (by intro q hq; rcases List.mem_singleton.mp hq with rfl;
          exact ⟨"smtp down", rfl⟩) rfl
  · refine (provider_chain_spec allFailService none).2.2.2.2.2.1 ?_
      (by decide)
    intro p hp
    have hlist : providersToTry allFailService none =
        [⟨"smtp", .error "smtp down"⟩, ⟨"sendgrid", .error "quota"⟩] := by
      decide
    rw [hlist] at hp
    rcases List.mem_cons.mp hp with rfl | hp
    · exact ⟨"smtp down", rfl⟩
    · rcases List.mem_singleton.mp hp with rfl
      exact ⟨"quota", rfl⟩

/-! ### Claim C2 -/

/-- An element of a list sitting at an index below `n` is in the `n`-prefix. -/
theorem get_mem_take (L : List ScheduledEmail) (n : Nat) (j : Fin L.length)
    (hj : j.val < n) : L.get j ∈ L.take n := by
  have hlen : j.val < (L.take n).length := by
    rw [List.length_take]
    omega
  have he : (L.take n).get ⟨j.val, hlen⟩ = L.get j :=
    List.getElem_take (L := L) (j := n) (i := j.val) (h := hlen)
  rw [← he]
  exact List.get_mem ..

/-- Non-urgent priorities have a strictly positive sort key. -/
theorem priorityOrder_pos_of_ne_urgent (p : EmailPriority)
    (h : p ≠ .urgent) : 0 < priorityOrder p := by
  cases p <;> simp_all [priorityOrder]

/-- A lower-priority record never sorts at or before an urgent one. -/
theorem not_dueLe_of_urgent (l u : ScheduledEmail)
    (hu : u.priority = .urgent) (hl : l.priority ≠ .urgent) :
    ¬ dueLe l u := by
  intro hle
  have h0 : priorityOrder u.priority = 0 := by rw [hu]; rfl
  have hpos := priorityOrder_pos_of_ne_urgent l.priority hl
  unfold dueLe at hle
  omega

/-- **C2.** `get_pending_emails` returns exactly the pending records due at
the cutoff (truncated to `limit`), ordered by priority
urgent→high→normal→low and within equal priority by ascending
`scheduled_at`; hence whenever a lower-priority due record is returned, every
due urgent record is returned as well, and strictly before it. -/
theorem due_ordering_spec (s : EmailStore) (before : Int) (limit : Nat) :
    (∀ e ∈ getPendingEmails s before limit,
        e.status = .pending ∧ e.scheduledAt ≤ before ∧ e ∈ s.emails) ∧
    (∃ L, (dueFilter s before).Perm L ∧ List.Pairwise dueLe L ∧
        getPendingEmails s before limit = L.take limit) ∧
    List.Pairwise dueLe (getPendingEmails s before limit) ∧
    (∀ u l, u ∈ dueFilter s before → u.priority = .urgent →
        l ∈ getPendingEmails s before limit → l.priority ≠ .urgent →
        u ∈ getPendingEmails s before limit) ∧
    (∀ u l, u.priority = .urgent → l.priority ≠ .urgent →
        ∀ i j : Fin (getPendingEmails s before limit).length,
          (getPendingEmails s before limit).get i = l →
          (getPendingEmails s before limit).get j = u → j < i) := by
  have hperm : (dueFilter s before).Perm
      ((dueFilter s before).insertionSort dueLe) :=
    (List.perm_insertionSort dueLe (dueFilter s before)).symm
  have hsorted : List.Pairwise dueLe
      ((dueFilter s before).insertionSort dueLe) :=
    List.sorted_insertionSort dueLe (dueFilter s before)
  have htake : getPendingEmails s before limit =
      ((dueFilter s before).insertionSort dueLe).take limit := rfl
  have hpairwise : List.Pairwise dueLe (getPendingEmails s before limit) := by
    rw [htake]
    exact List.Pairwise.sublist (List.take_sublist ..) hsorted
  refine ⟨fun e he => mem_getPendingEmails s before limit e he,
    ⟨_, hperm, hsorted, htake⟩, hpairwise, ?_, ?_⟩
  · intro u l hu hup hl hlp
    have hul : u ∈ (dueFilter s before).insertionSort dueLe :=
      hperm.mem_iff.mp hu
    obtain ⟨j, hj⟩ := List.mem_iff_get.mp hul
    have hll : l ∈ ((dueFilter s before).insertionSort dueLe).take limit := by
      rw [← htake]; exact hl
    obtain ⟨i, hi⟩ := List.mem_iff_get.mp hll
    have hlen2 : (((dueFilter s before).insertionSort dueLe).take
        limit).length =
        min limit ((dueFilter s before).insertionSort dueLe).length :=
      List.length_take ..
    have hilt : i.val < limit := by
      have h1 := i.isLt
      omega
    have hiL : i.val < ((dueFilter s before).insertionSort dueLe).length := by
      have h1 := i.isLt
      omega
    have higet : ((dueFilter s before).insertionSort dueLe).get
        ⟨i.val, hiL⟩ = l := by
      rw [← hi]
      symm
      exact List.getElem_take
        (L := (dueFilter s before).insertionSort dueLe) (j := limit)
        (i := i.val) (h := i.isLt)
    by_cases hjlt : j.val < limit
    · rw [htake]
      rw [← hj]
      exact get_mem_take _ limit j hjlt
    · exfalso
      have hjge : limit ≤ j.val := le_of_not_lt hjlt
      have hij : (⟨i.val, hiL⟩ : Fin _) < j := by
        rw [Fin.lt_def]
        simp only
        omega
      have := (List.pairwise_iff_get.mp hsorted) ⟨i.val, hiL⟩ j hij
      rw [higet, hj] at this
      exact not_dueLe_of_urgent l u hup hlp this
  · intro u l hup hlp i j hi hj
    rcases lt_trichotomy j i with h | h | h
    · exact h
    · exfalso
      apply hlp
      rw [← hi, ← h, hj, hup]
    · exfalso
      have := (List.pairwise_iff_get.mp hpairwise) i j h
      rw [hi, hj] at this
      exact not_dueLe_of_urgent l u hup hlp this

/-- Witness for C2: on the concrete mixed-priority store the urgent record is
returned (first), and membership yields its due-pending facts. -/
theorem due_ordering_spec_witness :
    urgentEmail.status = .pending ∧ urgentEmail.scheduledAt ≤ 1000 ∧
      urgentEmail ∈ mixedStore.emails :=
  (due_ordering_spec mixedStore 1000 100).1 urgentEmail (by decide)

end EmailCore
